import Mathlib

/-!
Shallow embedding of `src/app.py` (JLPT vocabulary cycling app).

The tkinter app `JLPTVocabApp` keeps: a word list `self.words`, a cursor
`self.current_index`, a `self.paused` flag, a list of scheduled timer handles
`self.pending_jobs`, a display `self.stage`, the three label texts, and
`self.config_data`.  We embed that state as `AppState` and each method as a
pure state-transformer.  Timer handles are modelled as `Job` values: a job is
appended by `self.after(...)` (alive), it stays in the app's `pending_jobs`
list after it fires (dead), and `cancel_pending_jobs` empties the list.  The
event loop is modelled by the step relation `Step`: a scheduled callback may
fire only while its job is alive, and firing consumes the job.
-/

namespace JLPTVoca

/-- A vocabulary record (`WordEntry` dataclass in `app.py`). -/
structure WordEntry where
  word : String
  reading : String
  meaning : String
deriving DecidableEq, Repr

/-- The configuration dictionary `config_data`; `load_config` always produces
exactly these three keys. -/
structure Config where
  showMeaningTimer : Int
  nextWordTimer : Int
  alwaysOnTop : Bool
deriving DecidableEq, Repr

/-- `DEFAULT_CONFIG` from `app.py`. -/
def DEFAULT_CONFIG : Config :=
  { showMeaningTimer := 3, nextWordTimer := 5, alwaysOnTop := true }

/-- The value of `self.stage`: `"word"` or `"meaning"`. -/
inductive Stage where
  | word
  | meaning
deriving DecidableEq, Repr

/-- Which callback a scheduled timer will invoke. -/
inductive JobKind where
  | reveal
  | advance
deriving DecidableEq, Repr

/-- A timer handle returned by `self.after`.  `live` is true while the
callback is scheduled and becomes false once it fires; a cancelled handle is
removed from the list altogether (as `cancel_pending_jobs` does). -/
structure Job where
  kind : JobKind
  delayMs : Int
  live : Bool
deriving DecidableEq, Repr

/-- The mutable state of `JLPTVocabApp`. -/
structure AppState where
  config : Config
  words : List WordEntry
  current_index : Nat
  paused : Bool
  pending_jobs : List Job
  stage : Stage
  wordText : String
  readingText : String
  meaningText : String
deriving DecidableEq, Repr

/-- Number of live (scheduled, not yet fired, not cancelled) handles in a
job list. -/
def listLive (jobs : List Job) : Nat :=
  (jobs.filter (fun j => j.live)).length

/-- Number of live scheduled callbacks outstanding for a state. -/
def liveCount (s : AppState) : Nat :=
  listLive s.pending_jobs

/-- `JLPTVocabApp.cancel_pending_jobs`: cancels every handle in
`pending_jobs` (idempotently, swallowing `TclError`) and clears the list. -/
def cancel_pending_jobs (s : AppState) : AppState :=
  { s with pending_jobs := [] }

/-- The delay handed to `self.after` in `show_current_word` /
`reveal_current_word`: `max(0, int(timer)) * 1000`. -/
def schedule_delay_ms (seconds : Int) : Int :=
  max 0 seconds * 1000

/-- `JLPTVocabApp.show_current_word`.  Cancels all pending jobs; on an empty
deck it just shows the empty-deck label text and returns; otherwise it
renders the current word, sets `stage = "word"`, and (when not paused)
schedules `reveal_current_word` after `showMeaningTimer` seconds.  The Python
indexing `self.words[self.current_index]` is embedded with `List.getD`
(callers maintain `current_index < len(words)`). -/
def show_current_word (s : AppState) : AppState :=
  let s := cancel_pending_jobs s
  if s.words.isEmpty then
    { s with wordText := "단어 목록이 없습니다.", readingText := "", meaningText := "" }
  else
    let entry := s.words.getD s.current_index ⟨"", "", ""⟩
    let s := { s with wordText := entry.word, readingText := "", meaningText := "",
                      stage := Stage.word }
    if s.paused then s
    else
      { s with pending_jobs := s.pending_jobs ++
          [⟨JobKind.reveal, schedule_delay_ms s.config.showMeaningTimer, true⟩] }

/-- `JLPTVocabApp.reveal_current_word`.  No-op on an empty deck; otherwise
fills in reading/meaning, sets `stage = "meaning"`, and (when not paused)
schedules `advance_to_next_word` after `nextWordTimer` seconds.  Note: unlike
`show_current_word`, it does not cancel pending jobs. -/
def reveal_current_word (s : AppState) : AppState :=
  if s.words.isEmpty then s
  else
    let entry := s.words.getD s.current_index ⟨"", "", ""⟩
    let s := { s with readingText := entry.reading, meaningText := entry.meaning,
                      stage := Stage.meaning }
    if s.paused then s
    else
      { s with pending_jobs := s.pending_jobs ++
          [⟨JobKind.advance, schedule_delay_ms s.config.nextWordTimer, true⟩] }

/-- `JLPTVocabApp.advance_to_next_word`, parameterized by the behaviour of
`random.shuffle` (an in-place permutation of the list). -/
def advance_to_next_word (shuffle : List WordEntry → List WordEntry)
    (s : AppState) : AppState :=
  if s.words.isEmpty then s
  else
    let s := { s with current_index := (s.current_index + 1) % s.words.length }
    let s := if s.current_index = 0 then { s with words := shuffle s.words } else s
    show_current_word s

/-- `JLPTVocabApp.toggle_pause`.  (The pause-button label change is a pure
presentation effect and is not part of the modelled state.) -/
def toggle_pause (s : AppState) : AppState :=
  if s.paused then show_current_word { s with paused := false }
  else cancel_pending_jobs { s with paused := true }

/-- `JLPTVocabApp.update_config` (invoked by the settings dialog with an
already-validated config): store the config, re-apply the topmost hint, and
restart the cycle unless paused. -/
def update_config (c : Config) (s : AppState) : AppState :=
  let s := { s with config := c }
  if s.paused then s else show_current_word s

/-- `JLPTVocabApp.load_words_from_path`.  The argument is the outcome of
`load_words_from_csv(path)` (an exception or a list of entries); the returned
`Bool` is the method's return value (`False` shows an error/warning dialog
and leaves the state untouched). -/
def load_words_from_path (parsed : Except String (List WordEntry))
    (shuffle : List WordEntry → List WordEntry) (s : AppState) :
    AppState × Bool :=
  match parsed with
  | .error _ => (s, false)
  | .ok entries =>
    if entries.isEmpty then (s, false)
    else
      let s := { s with words := shuffle entries, current_index := 0 }
      if s.paused then
        ({ s with wordText := "단어를 불러왔습니다. 재생을 눌러 시작하세요.",
                  readingText := "", meaningText := "" }, true)
      else (show_current_word s, true)

/-- `JLPTVocabApp.__init__`: load words (a load failure leaves an empty
list), shuffle them, start unpaused at index 0 with no pending jobs, render
the initial widgets, and call `show_current_word`. -/
def init_state (cfg : Config) (loaded : Except String (List WordEntry))
    (shuffle : List WordEntry → List WordEntry) : AppState :=
  let words := match loaded with
    | .ok ws => ws
    | .error _ => []
  show_current_word
    { config := cfg, words := shuffle words, current_index := 0, paused := false,
      pending_jobs := [], stage := Stage.word,
      wordText := if words.isEmpty then "단어 목록이 없습니다." else "",
      readingText := "", meaningText := "" }

/-- Mark the first live job of the given kind as fired (dead); `none` when no
live job of that kind is scheduled.  This is the timer port delivering a
callback: a callback can run only while its handle is live, and running it
consumes the handle. -/
def markFired : List Job → JobKind → Option (List Job)
  | [], _ => Option.none
  | j :: rest, k =>
    if j.live && j.kind == k then some ({ j with live := false } :: rest)
    else (markFired rest k).map (fun l => j :: l)

/-- One event of the app's (single-threaded) event loop: a scheduled callback
fires, or the user presses pause/play, saves settings, or imports a deck. -/
inductive Step : AppState → AppState → Prop where
  | fireReveal {s : AppState} {l : List Job}
      (h : markFired s.pending_jobs JobKind.reveal = some l) :
      Step s (reveal_current_word { s with pending_jobs := l })
  | fireAdvance {s : AppState} {l : List Job}
      (shuffle : List WordEntry → List WordEntry)
      (h : markFired s.pending_jobs JobKind.advance = some l) :
      Step s (advance_to_next_word shuffle { s with pending_jobs := l })
  | togglePause {s : AppState} : Step s (toggle_pause s)
  | configChange {s : AppState} (c : Config) : Step s (update_config c s)
  | deckReplace {s : AppState} (parsed : Except String (List WordEntry))
      (shuffle : List WordEntry → List WordEntry) :
      Step s (load_words_from_path parsed shuffle s).1

/-- States the app can be in at some point of its lifetime. -/
def Reachable (cfg : Config) (loaded : Except String (List WordEntry))
    (shuffle : List WordEntry → List WordEntry) (s : AppState) : Prop :=
  Relation.ReflTransGen Step (init_state cfg loaded shuffle) s

/-! ### `random.shuffle`

`random.shuffle(x)` is not part of the repository; its documented behaviour
is the Fisher–Yates loop `for i in reversed(range(1, len(x))): j =
randbelow(i+1); x[i], x[j] = x[j], x[i]`.  We embed it with an arbitrary
randomness source `rand`, reduced mod `i+1` so that `j ≤ i` as `randbelow`
guarantees. -/

/-- Swap the elements at positions `i` and `j` (identity when either index is
out of range). -/
def listSwap (l : List WordEntry) (i j : Nat) : List WordEntry :=
  match l[i]?, l[j]? with
  | some a, some b => (l.set i b).set j a
  | _, _ => l

/-- The Fisher–Yates loop of `random.shuffle`, for indices `i, i-1, ..., 1`. -/
def shuffleAux (rand : Nat → Nat) : Nat → List WordEntry → List WordEntry
  | 0, l => l
  | Nat.succ i, l => shuffleAux rand i (listSwap l (i + 1) (rand (i + 1) % (i + 2)))

/-- `random.shuffle` on a list, driven by the randomness source `rand`. -/
def pyShuffle (rand : Nat → Nat) (l : List WordEntry) : List WordEntry :=
  shuffleAux rand (l.length - 1) l

/-! ### Python string primitives

`str.strip()` and `int(str)` are embedded as explicit character-list
functions (rather than through Lean's opaque string library) so that they
compute: stripping removes the surrounding whitespace, and integer parsing
accepts an optional sign followed by decimal digits. -/

/-- Whitespace as `str.strip()` removes it (the ASCII cases). -/
def isPySpace (c : Char) : Bool :=
  c == ' ' || c == '\t' || c == '\n' || c == '\r'

/-- Python's `value.strip()`. -/
def pyStrip (s : String) : String :=
  ⟨((s.data.dropWhile isPySpace).reverse.dropWhile isPySpace).reverse⟩

/-- Accumulate decimal digits; fails at the first non-digit. -/
def parseDigitsAux : List Char → Nat → Option Nat
  | [], acc => some acc
  | c :: cs, acc =>
    if c.isDigit then parseDigitsAux cs (acc * 10 + (c.toNat - '0'.toNat))
    else Option.none

/-- A non-empty all-digit character list as a number. -/
def parseDigits : List Char → Option Nat
  | [] => Option.none
  | cs => parseDigitsAux cs 0

/-- Python's `int(s)` for a string: strip whitespace, then an optional sign
followed by decimal digits; anything else raises `ValueError` (`none`). -/
def pyToInt? (s : String) : Option Int :=
  match (pyStrip s).data with
  | [] => Option.none
  | '-' :: rest => (parseDigits rest).map (fun n => -(n : Int))
  | '+' :: rest => (parseDigits rest).map (fun n => (n : Int))
  | l => (parseDigits l).map (fun n => (n : Int))

/-! ### Config persistence (`load_config`) and timer validation -/

/-- A JSON value as `json.loads` hands it to `load_config`; the subset of
Python values the config file can realistically hold (ints, bools, strings,
null). -/
inductive PyVal where
  | int (n : Int)
  | bool (b : Bool)
  | str (s : String)
  | null
deriving DecidableEq, Repr

/-- Python's `int(...)` on such a value: ints pass through, bools become
0/1, strings are parsed as integer literals (surrounding whitespace
allowed), everything else raises.  String parsing is embedded with
`String.toInt?`. -/
def pyInt : PyVal → Except Unit Int
  | .int n => .ok n
  | .bool b => .ok (if b then 1 else 0)
  | .str s =>
    match pyToInt? s with
    | some n => .ok n
    | Option.none => .error ()
  | .null => .error ()

/-- Python's `bool(...)` (truthiness) on such a value. -/
def pyBool : PyVal → Bool
  | .int n => n != 0
  | .bool b => b
  | .str s => s != ""
  | .null => false

/-- A parsed config JSON object: each recognized key is present or absent
(`dict.get` semantics). -/
structure RawConfig where
  showMeaningTimer : Option PyVal
  nextWordTimer : Option PyVal
  alwaysOnTop : Option PyVal
deriving DecidableEq, Repr

/-- `load_config(path)`.  The argument models the stored file:
`Option.none` when the file does not exist, `some Option.none` when its text
fails to parse as a JSON object, and `some (some raw)` for a parsed object.
Any exception while converting (an `int(...)` failure) discards everything
and returns `DEFAULT_CONFIG.copy()`. -/
def load_config (stored : Option (Option RawConfig)) : Config :=
  match stored with
  | some (some data) =>
    match pyInt (data.showMeaningTimer.getD (PyVal.int DEFAULT_CONFIG.showMeaningTimer)),
          pyInt (data.nextWordTimer.getD (PyVal.int DEFAULT_CONFIG.nextWordTimer)) with
    | .ok sm, .ok nw =>
      { showMeaningTimer := sm, nextWordTimer := nw,
        alwaysOnTop := pyBool (data.alwaysOnTop.getD (PyVal.bool DEFAULT_CONFIG.alwaysOnTop)) }
    | _, _ => DEFAULT_CONFIG
  | _ => DEFAULT_CONFIG

/-- `SettingsWindow._validate_timer`: strip the entry text, reject empty
input, non-integers, and negatives — each with a message that starts with the
field name — and return the parsed integer otherwise.  Python's `int(value)`
is embedded with `String.toInt?`. -/
def validate_timer (value field_name : String) : Except String Int :=
  let value := pyStrip value
  if value = "" then .error (field_name ++ " 값을 입력하세요.")
  else
    match pyToInt? value with
    | Option.none => .error (field_name ++ "은(는) 정수여야 합니다.")
    | some number =>
      if number < 0 then .error (field_name ++ "은(는) 0 이상이어야 합니다.")
      else .ok number

/-! ### Deck source parsing (`load_words_from_csv`) -/

/-- A CSV file as `csv.DictReader` sees it: the header row (absent for an
empty file — `reader.fieldnames` is `None`) and the data rows as lists of
cell strings. -/
structure CsvFile where
  fieldnames : Option (List String)
  rows : List (List String)

/-- `row.get(key)` on a `DictReader` row dict: the cell under the LAST
occurrence of `key` in the header (later duplicate headers overwrite
earlier ones in the dict, and `restval=None` fills columns the row is too
short to cover), `none` when the key is not a fieldname or the row has no
cell there. -/
def dictGet (fields row : List String) (key : String) : Option String :=
  match (fields.reverse.findIdx? (fun f => f = key)) with
  | Option.none => Option.none
  | some r => row[fields.length - 1 - r]?

/-- The body of the row loop in `load_words_from_csv`: strip the three
cells, drop the row when `word` strips to empty, else build a `WordEntry`. -/
def rowEntry (fields row : List String) : Option WordEntry :=
  let word := pyStrip ((dictGet fields row "word").getD "")
  let reading := pyStrip ((dictGet fields row "reading").getD "")
  let meaning := pyStrip ((dictGet fields row "meaning").getD "")
  if word = "" then Option.none
  else some { word := word, reading := reading, meaning := meaning }

/-- `load_words_from_csv` (for an existing file): reject the file unless
`{word, reading, meaning} ⊆ reader.fieldnames or []`, else collect the
surviving rows in order. -/
def load_words_from_csv (file : CsvFile) : Except String (List WordEntry) :=
  let fields := file.fieldnames.getD []
  if "word" ∈ fields ∧ "reading" ∈ fields ∧ "meaning" ∈ fields then
    .ok (file.rows.filterMap (rowEntry fields))
  else
    .error "CSV 헤더는 word, reading, meaning 을 포함해야 합니다."

/-! ### Concrete fixtures (used by counterexamples and witnesses) -/

/-- Build an app state with the default config and blank labels. -/
def mkState (words : List WordEntry) (idx : Nat) (paused : Bool)
    (jobs : List Job) (stage : Stage) : AppState :=
  { config := DEFAULT_CONFIG, words := words, current_index := idx,
    paused := paused, pending_jobs := jobs, stage := stage,
    wordText := "", readingText := "", meaningText := "" }

def catEntry : WordEntry := ⟨"猫", "ねこ", "cat"⟩

def dogEntry : WordEntry := ⟨"犬", "いぬ", "dog"⟩

def birdEntry : WordEntry := ⟨"鳥", "とり", "bird"⟩

/-- A running state with one live scheduled reveal callback, as after
`show_current_word` on a one-entry deck. -/
def revealNoCancelState : AppState :=
  mkState [catEntry] 0 false [⟨JobKind.reveal, 3000, true⟩] Stage.word

def deck3 : List WordEntry := [catEntry, dogEntry, birdEntry]

def deck3State : AppState := mkState deck3 0 false [] Stage.word

def oneWordState : AppState := mkState [catEntry] 0 false [] Stage.word

def emptyDeckState : AppState := mkState [] 0 false [] Stage.word

/-- A state whose config holds a negative `showMeaningTimer`, as a config
file edited by hand can produce. -/
def negTimerState : AppState :=
  { mkState [catEntry] 0 false [] Stage.word with
    config := { showMeaningTimer := -7, nextWordTimer := 5, alwaysOnTop := true } }

/-- Rows of a well-formed CSV: one valid row and one whose `word` strips to
empty. -/
def goodRows : List (List String) := [["猫", "ねこ", "cat"], [" ", "x", "y"]]

/-! ### Live-handle counting lemmas -/

theorem listLive_nil : listLive [] = 0 := rfl

theorem listLive_append (a b : List Job) :
    listLive (a ++ b) = listLive a + listLive b := by
  simp [listLive, List.filter_append]

theorem liveCount_cancel (s : AppState) : liveCount (cancel_pending_jobs s) = 0 := rfl

theorem liveCount_show_le (s : AppState) : liveCount (show_current_word s) ≤ 1 := by
  simp only [show_current_word, cancel_pending_jobs]
  split
  · simp [liveCount, listLive]
  · split
    · simp [liveCount, listLive]
    · simp [liveCount, listLive]

theorem liveCount_reveal_le (s : AppState) :
    liveCount (reveal_current_word s) ≤ liveCount s + 1 := by
  simp only [reveal_current_word]
  split
  · exact Nat.le_succ _
  · split
    · exact Nat.le_succ _
    · simp [liveCount, listLive, List.filter_append]

theorem liveCount_advance_le (shuffle : List WordEntry → List WordEntry)
    (s : AppState) (h : liveCount s ≤ 1) :
    liveCount (advance_to_next_word shuffle s) ≤ 1 := by
  simp only [advance_to_next_word]
  split
  · exact h
  · exact liveCount_show_le _

theorem liveCount_toggle_le (s : AppState) : liveCount (toggle_pause s) ≤ 1 := by
  simp only [toggle_pause]
  split
  · exact liveCount_show_le _
  · simp [liveCount_cancel]

theorem liveCount_update_le (c : Config) (s : AppState) (h : liveCount s ≤ 1) :
    liveCount (update_config c s) ≤ 1 := by
  simp only [update_config]
  split
  · exact h
  · exact liveCount_show_le _

theorem liveCount_load_le (parsed : Except String (List WordEntry))
    (shuffle : List WordEntry → List WordEntry) (s : AppState)
    (h : liveCount s ≤ 1) :
    liveCount (load_words_from_path parsed shuffle s).1 ≤ 1 := by
  simp only [load_words_from_path]
  split
  · exact h
  · split
    · exact h
    · split
      · exact h
      · exact liveCount_show_le _

theorem listLive_markFired {jobs : List Job} {k : JobKind} {l : List Job}
    (h : markFired jobs k = some l) : listLive l + 1 = listLive jobs := by
  induction jobs generalizing l with
  | nil => simp [markFired] at h
  | cons j rest ih =>
    rw [markFired] at h
    split at h
    · rename_i hcond
      have hlive : j.live = true := by
        revert hcond
        cases j.live <;> simp
      injection h with h
      subst h
      simp [listLive, List.filter_cons, hlive]
    · obtain ⟨l', hl', rfl⟩ := Option.map_eq_some'.mp h
      have := ih hl'
      by_cases hj : j.live <;> simp [listLive, List.filter_cons, hj] at * <;> omega

theorem step_liveCount {s t : AppState} (hst : Step s t) (h : liveCount s ≤ 1) :
    liveCount t ≤ 1 := by
  cases hst with
  | @fireReveal l hm =>
    have hmark := listLive_markFired hm
    have hle := liveCount_reveal_le { s with pending_jobs := l }
    have hcl : liveCount { s with pending_jobs := l } = listLive l := rfl
    simp only [liveCount] at h
    omega
  | @fireAdvance l shuffle hm =>
    have hmark := listLive_markFired hm
    refine liveCount_advance_le shuffle _ ?_
    have hcl : liveCount { s with pending_jobs := l } = listLive l := rfl
    simp only [liveCount] at h
    omega
  | togglePause => exact liveCount_toggle_le _
  | configChange c => exact liveCount_update_le c _ h
  | deckReplace parsed shuffle => exact liveCount_load_le parsed shuffle _ h

/-! ### Projection lemmas for the transition functions -/

theorem show_current_word_words (s : AppState) :
    (show_current_word s).words = s.words := by
  simp only [show_current_word, cancel_pending_jobs]
  split
  · rfl
  · split <;> rfl

theorem show_current_word_index (s : AppState) :
    (show_current_word s).current_index = s.current_index := by
  simp only [show_current_word, cancel_pending_jobs]
  split
  · rfl
  · split <;> rfl

theorem show_current_word_paused (s : AppState) :
    (show_current_word s).paused = s.paused := by
  simp only [show_current_word, cancel_pending_jobs]
  split
  · rfl
  · split <;> rfl

theorem show_current_word_config (s : AppState) :
    (show_current_word s).config = s.config := by
  simp only [show_current_word, cancel_pending_jobs]
  split
  · rfl
  · split <;> rfl

theorem show_current_word_stage (s : AppState) (h : s.words ≠ []) :
    (show_current_word s).stage = Stage.word := by
  simp only [show_current_word, cancel_pending_jobs]
  rw [if_neg]
  · split <;> rfl
  · simp [List.isEmpty_iff, h]

theorem advance_index (shuffle : List WordEntry → List WordEntry)
    (t : AppState) (h : t.words ≠ []) :
    (advance_to_next_word shuffle t).current_index =
      (t.current_index + 1) % t.words.length := by
  simp only [advance_to_next_word]
  rw [if_neg]
  · split
    · rw [show_current_word_index]
    · rw [show_current_word_index]
  · simp [List.isEmpty_iff, h]

theorem advance_words (shuffle : List WordEntry → List WordEntry)
    (t : AppState) (h : t.words ≠ []) :
    (advance_to_next_word shuffle t).words =
      if (t.current_index + 1) % t.words.length = 0 then shuffle t.words
      else t.words := by
  simp only [advance_to_next_word]
  rw [if_neg]
  · split
    · rw [show_current_word_words]
    · rw [show_current_word_words]
  · simp [List.isEmpty_iff, h]

/-! ### The shuffle is a permutation -/

theorem cons_set_perm {α : Type} :
    ∀ (l : List α) (k : Nat) (x b : α), l[k]? = some b →
      (b :: l.set k x).Perm (x :: l) := by
  intro l
  induction l with
  | nil => intro k x b h; simp at h
  | cons y ys ih =>
    intro k x b h
    cases k with
    | zero =>
      rw [List.getElem?_cons_zero] at h
      injection h with h
      subst h
      simpa [List.set_cons_zero] using List.Perm.swap x y ys
    | succ m =>
      rw [List.getElem?_cons_succ] at h
      have step1 : (b :: y :: ys.set m x).Perm (y :: b :: ys.set m x) :=
        List.Perm.swap y b (ys.set m x)
      have step2 : (y :: b :: ys.set m x).Perm (y :: x :: ys) :=
        List.Perm.cons y (ih m x b h)
      have step3 : (y :: x :: ys).Perm (x :: y :: ys) := List.Perm.swap x y ys
      simpa [List.set_cons_succ] using (step1.trans step2).trans step3

theorem set_set_perm {α : Type} :
    ∀ (l : List α) (i j : Nat) (a b : α), l[i]? = some a → l[j]? = some b →
      ((l.set i b).set j a).Perm l := by
  intro l
  induction l with
  | nil => intro i j a b hi _; simp at hi
  | cons y ys ih =>
    intro i j a b hi hj
    cases i with
    | zero =>
      rw [List.getElem?_cons_zero] at hi
      injection hi with hi
      subst hi
      cases j with
      | zero =>
        rw [List.getElem?_cons_zero] at hj
        injection hj with hj
        subst hj
        simp [List.set_cons_zero]
      | succ k =>
        rw [List.getElem?_cons_succ] at hj
        simpa [List.set_cons_zero, List.set_cons_succ] using cons_set_perm ys k y b hj
    | succ m =>
      rw [List.getElem?_cons_succ] at hi
      cases j with
      | zero =>
        rw [List.getElem?_cons_zero] at hj
        injection hj with hj
        subst hj
        simpa [List.set_cons_zero, List.set_cons_succ] using cons_set_perm ys m y a hi
      | succ k =>
        rw [List.getElem?_cons_succ] at hj
        simpa [List.set_cons_succ] using List.Perm.cons y (ih m k a b hi hj)

theorem listSwap_perm (l : List WordEntry) (i j : Nat) : (listSwap l i j).Perm l := by
  unfold listSwap
  split
  · rename_i a b hi hj
    exact set_set_perm l i j a b hi hj
  · exact List.Perm.refl l

theorem shuffleAux_perm (rand : Nat → Nat) :
    ∀ (i : Nat) (l : List WordEntry), (shuffleAux rand i l).Perm l := by
  intro i
  induction i with
  | zero => intro l; exact List.Perm.refl l
  | succ i ih =>
    intro l
    exact (ih _).trans (listSwap_perm l (i + 1) (rand (i + 1) % (i + 2)))

theorem pyShuffle_perm (rand : Nat → Nat) (l : List WordEntry) :
    (pyShuffle rand l).Perm l :=
  shuffleAux_perm rand (l.length - 1) l

/-! ### Iterated advance (round-robin) lemmas -/

theorem range_map_getD {α : Type} (l : List α) (d : α) :
    (List.range l.length).map (fun k => l.getD k d) = l := by
  induction l with
  | nil => simp
  | cons a t ih =>
    rw [List.length_cons, List.range_succ_eq_map, List.map_cons, List.map_map]
    have hc : ((fun k => (a :: t).getD k d) ∘ Nat.succ) = fun k => t.getD k d := by
      funext k
      simp [List.getD_cons_succ]
    rw [hc, ih]
    simp [List.getD_cons_zero]

theorem advance_iter (shuffle : List WordEntry → List WordEntry) (s : AppState)
    (h0 : s.current_index = 0) (hne : s.words ≠ []) :
    ∀ k, k < s.words.length →
      ((advance_to_next_word shuffle)^[k] s).current_index = k ∧
      ((advance_to_next_word shuffle)^[k] s).words = s.words := by
  intro k
  induction k with
  | zero =>
    intro _
    exact ⟨h0, rfl⟩
  | succ k ih =>
    intro hk
    have hk' : k < s.words.length := Nat.lt_of_succ_lt hk
    obtain ⟨hidx, hw⟩ := ih hk'
    rw [Function.iterate_succ_apply']
    have htne : ((advance_to_next_word shuffle)^[k] s).words ≠ [] := by
      rw [hw]; exact hne
    constructor
    · rw [advance_index shuffle _ htne, hidx, hw]
      exact Nat.mod_eq_of_lt hk
    · rw [advance_words shuffle _ htne, hidx, hw, Nat.mod_eq_of_lt hk,
        if_neg (Nat.succ_ne_zero k)]

theorem advance_full_pass (shuffle : List WordEntry → List WordEntry)
    (s : AppState) (h0 : s.current_index = 0) (hne : s.words ≠ []) :
    ((advance_to_next_word shuffle)^[s.words.length] s).current_index = 0 ∧
    ((advance_to_next_word shuffle)^[s.words.length] s).words = shuffle s.words := by
  obtain ⟨n, hn⟩ : ∃ n, s.words.length = n + 1 := by
    have : 0 < s.words.length := List.length_pos.mpr hne
    exact ⟨s.words.length - 1, by omega⟩
  obtain ⟨hidx, hw⟩ := advance_iter shuffle s h0 hne n (by omega)
  rw [hn, Function.iterate_succ_apply']
  have htne : ((advance_to_next_word shuffle)^[n] s).words ≠ [] := by
    rw [hw]; exact hne
  constructor
  · rw [advance_index shuffle _ htne, hidx, hw, hn]
    simp
  · rw [advance_words shuffle _ htne, hidx, hw, hn]
    rw [Nat.mod_self, if_pos rfl]

/-! ### Claim C1 -/

/-- C1 counterexample: the claim, as stated, says every transition —
`revealMeaning` included — cancels any pending timer before scheduling a new
one, so that `pending_jobs` never holds more than one live handle.
`reveal_current_word` does not cancel: run on a running state that already
holds one live handle it appends the advance callback and leaves two live
handles. -/
theorem c1_counterexample :
    liveCount revealNoCancelState = 1 ∧
    liveCount (reveal_current_word revealNoCancelState) = 2 :=
  ⟨rfl, rfl⟩

/-- C1 (amended): every state reachable in the engine's lifetime — from
startup through any sequence of callback firings, pause toggles, config
changes and deck replacements — holds at most one live timer handle.
`show_current_word` (hence advance, resume, config change, deck replacement)
cancels before scheduling; `reveal_current_word` does not cancel, but it only
runs as the unique outstanding callback, which firing consumes. -/
theorem c1_at_most_one_live_timer (cfg : Config)
    (loaded : Except String (List WordEntry))
    (shuffle : List WordEntry → List WordEntry) (s : AppState)
    (h : Reachable cfg loaded shuffle s) : liveCount s ≤ 1 := by
  have h' : Relation.ReflTransGen Step (init_state cfg loaded shuffle) s := h
  clear h
  induction h' with
  | refl => exact liveCount_show_le _
  | tail _ hstep ih => exact step_liveCount hstep ih

/-- Witness for C1: the startup state (reachable by the empty event
sequence) satisfies the bound. -/
theorem c1_witness :
    liveCount (init_state DEFAULT_CONFIG (Except.ok [catEntry]) id) ≤ 1 :=
  c1_at_most_one_live_timer DEFAULT_CONFIG (Except.ok [catEntry]) id _
    Relation.ReflTransGen.refl

/-! ### Claim C3 -/

/-- C3: from any running (non-paused) state over a non-empty deck, toggling
pause twice (pause, then resume) leaves `paused = false` and `stage = Word`,
whatever stage was showing when pause was pressed. -/
theorem c3_double_toggle_restores_word (s : AppState)
    (hp : s.paused = false) (hne : s.words ≠ []) :
    (toggle_pause (toggle_pause s)).paused = false ∧
    (toggle_pause (toggle_pause s)).stage = Stage.word := by
  have h1 : toggle_pause s = cancel_pending_jobs { s with paused := true } := by
    simp [toggle_pause, hp]
  have h2 : toggle_pause (cancel_pending_jobs { s with paused := true }) =
      show_current_word { s with paused := false, pending_jobs := [] } := rfl
  rw [h1, h2]
  constructor
  · rw [show_current_word_paused]
  · exact show_current_word_stage _ hne

/-- Witness for C3: a running state displaying the meaning stage. -/
theorem c3_witness :
    (toggle_pause (toggle_pause (mkState [catEntry] 0 false [] Stage.meaning))).paused
      = false ∧
    (toggle_pause (toggle_pause (mkState [catEntry] 0 false [] Stage.meaning))).stage
      = Stage.word :=
  c3_double_toggle_restores_word (mkState [catEntry] 0 false [] Stage.meaning)
    rfl (List.cons_ne_nil _ _)

/-! ### Claim C4 -/

/-- C4: replacing the deck with an empty entry list fails (the failure is
reported to the host: a warning dialog is shown and the method returns
`False`), and the whole prior state — in particular `words` and
`current_index` — is returned unchanged; a CSV parse error behaves the same
way.  Deck replacement is all-or-nothing. -/
theorem c4_empty_replacement_all_or_nothing
    (shuffle : List WordEntry → List WordEntry) (s : AppState) :
    load_words_from_path (Except.ok []) shuffle s = (s, false) ∧
    ∀ msg, load_words_from_path (Except.error msg) shuffle s = (s, false) :=
  ⟨rfl, fun _ => rfl⟩

/-! ### Claim C6 -/

/-- C6: on an empty deck, `show_current_word` displays the empty-state
message and schedules nothing (no pending job survives it), and
`reveal_current_word` and `advance_to_next_word` are identity — so the
engine stays in a non-scheduling display state until a successful load. -/
theorem c6_empty_deck_terminal (shuffle : List WordEntry → List WordEntry)
    (s : AppState) (h : s.words = []) :
    (show_current_word s).pending_jobs = [] ∧
    (show_current_word s).wordText = "단어 목록이 없습니다." ∧
    (show_current_word s).readingText = "" ∧
    (show_current_word s).meaningText = "" ∧
    reveal_current_word s = s ∧
    advance_to_next_word shuffle s = s := by
  have hemp : s.words.isEmpty = true := by simp [h]
  refine ⟨?_, ?_, ?_, ?_, ?_, ?_⟩ <;>
    simp [show_current_word, reveal_current_word, advance_to_next_word,
      cancel_pending_jobs, hemp]

/-- Witness for C6: the concrete empty-deck state. -/
theorem c6_witness :
    (show_current_word emptyDeckState).pending_jobs = [] ∧
    reveal_current_word emptyDeckState = emptyDeckState :=
  ⟨(c6_empty_deck_terminal id emptyDeckState rfl).1,
   (c6_empty_deck_terminal id emptyDeckState rfl).2.2.2.2.1⟩

/-! ### Claim C10 -/

/-- C10: the delay handed to the timer port is `max(0, value) * 1000`
milliseconds and is never negative, for every stored timer value (negative
ones included); and the jobs scheduled by `show_current_word` and
`reveal_current_word` carry exactly that delay. -/
theorem c10_delay_never_negative :
    (∀ t : Int, 0 ≤ schedule_delay_ms t ∧ schedule_delay_ms t = max 0 t * 1000) ∧
    (∀ s : AppState, s.words ≠ [] → s.paused = false →
      (show_current_word s).pending_jobs =
        [{ kind := JobKind.reveal,
           delayMs := schedule_delay_ms s.config.showMeaningTimer, live := true }]) ∧
    (∀ s : AppState, s.words ≠ [] → s.paused = false →
      (reveal_current_word s).pending_jobs = s.pending_jobs ++
        [{ kind := JobKind.advance,
           delayMs := schedule_delay_ms s.config.nextWordTimer, live := true }]) := by
  refine ⟨fun t => ⟨mul_nonneg (le_max_left 0 t) (by norm_num), rfl⟩, ?_, ?_⟩
  · intro s hne hp
    have hemp : s.words.isEmpty = false := by simp [List.isEmpty_iff, hne]
    simp [show_current_word, cancel_pending_jobs, hemp, hp]
  · intro s hne hp
    have hemp : s.words.isEmpty = false := by simp [List.isEmpty_iff, hne]
    simp [reveal_current_word, hemp, hp]

/-- Witness for C10: a deck state with `showMeaningTimer = -7` — the
scheduled delay clamps to 0 rather than going negative. -/
theorem c10_witness :
    0 ≤ schedule_delay_ms (-7) ∧
    (show_current_word negTimerState).pending_jobs =
      [{ kind := JobKind.reveal, delayMs := schedule_delay_ms (-7), live := true }] :=
  ⟨(c10_delay_never_negative.1 (-7)).1,
   c10_delay_never_negative.2.1 negTimerState (List.cons_ne_nil _ _) rfl⟩

/-! ### Claim C2 -/

/-- C2: every call to `advance_to_next_word` on a non-empty deck sets
`index = (index + 1) mod length`; starting from index 0, the first
`length - 1` calls leave the deck unchanged and step the index to
1, 2, ..., length - 1 (never back to 0), the `length`-th call returns the
index to 0, and the entries displayed over the pass (position `k` after `k`
calls) are exactly the deck — every entry is visited exactly once before the
index returns to 0. -/
theorem c2_round_robin (shuffle : List WordEntry → List WordEntry)
    (s : AppState) (h0 : s.current_index = 0) (hne : s.words ≠ []) :
    (∀ t : AppState, t.words ≠ [] →
      (advance_to_next_word shuffle t).current_index =
        (t.current_index + 1) % t.words.length) ∧
    (∀ k, k < s.words.length →
      ((advance_to_next_word shuffle)^[k] s).current_index = k ∧
      ((advance_to_next_word shuffle)^[k] s).words = s.words) ∧
    (∀ k, 0 < k → k < s.words.length →
      ((advance_to_next_word shuffle)^[k] s).current_index ≠ 0) ∧
    ((advance_to_next_word shuffle)^[s.words.length] s).current_index = 0 ∧
    (List.range s.words.length).map (fun k =>
        ((advance_to_next_word shuffle)^[k] s).words.getD
          ((advance_to_next_word shuffle)^[k] s).current_index ⟨"", "", ""⟩)
      = s.words := by
  refine ⟨fun t ht => advance_index shuffle t ht,
    advance_iter shuffle s h0 hne, ?_, (advance_full_pass shuffle s h0 hne).1, ?_⟩
  · intro k hk0 hkn
    rw [(advance_iter shuffle s h0 hne k hkn).1]
    omega
  · have hcong : ∀ k ∈ List.range s.words.length,
        ((advance_to_next_word shuffle)^[k] s).words.getD
          ((advance_to_next_word shuffle)^[k] s).current_index ⟨"", "", ""⟩
        = s.words.getD k ⟨"", "", ""⟩ := by
      intro k hk
      rw [List.mem_range] at hk
      obtain ⟨hi, hw⟩ := advance_iter shuffle s h0 hne k hk
      rw [hi, hw]
    rw [List.map_congr_left hcong]
    exact range_map_getD s.words ⟨"", "", ""⟩

/-- Witness for C2: a 3-entry deck — the index wraps to 0 after exactly 3
calls, and the three displayed entries are the deck itself. -/
theorem c2_witness :
    ((advance_to_next_word id)^[3] deck3State).current_index = 0 ∧
    (List.range 3).map (fun k =>
        ((advance_to_next_word id)^[k] deck3State).words.getD
          ((advance_to_next_word id)^[k] deck3State).current_index ⟨"", "", ""⟩)
      = deck3 :=
  ⟨(c2_round_robin id deck3State rfl (List.cons_ne_nil _ _)).2.2.2.1,
   (c2_round_robin id deck3State rfl (List.cons_ne_nil _ _)).2.2.2.2⟩

/-! ### Claim C5 -/

/-- C5: `advance_to_next_word` reshuffles the deck exactly when the index
wraps to 0 — on a wrap the words become `random.shuffle` of the old words, a
permutation, so length and multiset of entries are preserved; on a non-wrap
call the words are exactly unchanged. -/
theorem c5_reshuffle_only_on_wrap (rand : Nat → Nat) (s : AppState)
    (hne : s.words ≠ []) :
    ((s.current_index + 1) % s.words.length = 0 →
      (advance_to_next_word (pyShuffle rand) s).words = pyShuffle rand s.words ∧
      (advance_to_next_word (pyShuffle rand) s).words.Perm s.words ∧
      (advance_to_next_word (pyShuffle rand) s).words.length = s.words.length) ∧
    ((s.current_index + 1) % s.words.length ≠ 0 →
      (advance_to_next_word (pyShuffle rand) s).words = s.words) := by
  constructor
  · intro hz
    have hw := advance_words (pyShuffle rand) s hne
    rw [if_pos hz] at hw
    refine ⟨hw, ?_, ?_⟩
    · rw [hw]
      exact pyShuffle_perm rand s.words
    · rw [hw]
      exact (pyShuffle_perm rand s.words).length_eq
  · intro hz
    have hw := advance_words (pyShuffle rand) s hne
    rwa [if_neg hz] at hw

/-- Witness for C5: a one-entry deck wraps immediately; the reshuffled deck
is a permutation of (here: equal to) the old one. -/
theorem c5_witness :
    (advance_to_next_word (pyShuffle fun _ => 0) oneWordState).words.Perm
      oneWordState.words ∧
    (advance_to_next_word (pyShuffle fun _ => 0) oneWordState).words.length
      = oneWordState.words.length :=
  ⟨((c5_reshuffle_only_on_wrap (fun _ => 0) oneWordState
      (List.cons_ne_nil _ _)).1 rfl).2.1,
   ((c5_reshuffle_only_on_wrap (fun _ => 0) oneWordState
      (List.cons_ne_nil _ _)).1 rfl).2.2⟩

/-! ### Claim C7 -/

/-- C7: `_validate_timer` fails — with a message that names the field —
whenever the entered value is not a non-negative integer (empty after
stripping, unparseable, or negative), and only ever accepts the parsed
non-negative integer; and in `load_config` each missing field falls back to
its default (`showMeaningTimer=3`, `nextWordTimer=5`, `alwaysOnTop=true`). -/
theorem c7_validation_and_defaults :
    (∀ v f : String,
      (pyStrip v = "" ∨ pyToInt? (pyStrip v) = Option.none ∨
        ∃ n, pyToInt? (pyStrip v) = some n ∧ n < 0) →
      ∃ msg, validate_timer v f = Except.error (f ++ msg)) ∧
    (∀ v f : String, ∀ n : Int, validate_timer v f = Except.ok n →
      pyToInt? (pyStrip v) = some n ∧ 0 ≤ n) ∧
    (∀ raw : RawConfig, raw.showMeaningTimer = Option.none →
      (load_config (some (some raw))).showMeaningTimer = 3) ∧
    (∀ raw : RawConfig, raw.nextWordTimer = Option.none →
      (load_config (some (some raw))).nextWordTimer = 5) ∧
    (∀ raw : RawConfig, raw.alwaysOnTop = Option.none →
      (load_config (some (some raw))).alwaysOnTop = true) := by
  refine ⟨?_, ?_, ?_, ?_, ?_⟩
  · intro v f h
    by_cases h1 : pyStrip v = ""
    · refine ⟨" 값을 입력하세요.", ?_⟩
      simp only [validate_timer]
      rw [if_pos h1]
    · cases hto : pyToInt? (pyStrip v) with
      | none =>
        refine ⟨"은(는) 정수여야 합니다.", ?_⟩
        simp only [validate_timer]
        rw [if_neg h1, hto]
      | some n =>
        have hn : n < 0 := by
          rcases h with h | h | ⟨m, hm, hmn⟩
          · exact absurd h h1
          · rw [h] at hto
            cases hto
          · rw [hm] at hto
            injection hto with he
            omega
        refine ⟨"은(는) 0 이상이어야 합니다.", ?_⟩
        simp only [validate_timer]
        rw [if_neg h1, hto]
        simp [hn]
  · intro v f n h
    simp only [validate_timer] at h
    split at h
    · simp at h
    · split at h
      · simp at h
      · rename_i m hto
        split at h
        · simp at h
        · rename_i hm
          injection h with h
          subst h
          exact ⟨hto, by omega⟩
  · intro raw h
    have hS3 : pyInt (raw.showMeaningTimer.getD (PyVal.int 3)) = Except.ok 3 := by
      rw [h]
      rfl
    cases hN : pyInt (raw.nextWordTimer.getD (PyVal.int 5)) with
    | ok nw => simp [load_config, hS3, hN, DEFAULT_CONFIG]
    | error e => simp [load_config, hS3, hN, DEFAULT_CONFIG]
  · intro raw h
    have hN5 : pyInt (raw.nextWordTimer.getD (PyVal.int 5)) = Except.ok 5 := by
      rw [h]
      rfl
    cases hS : pyInt (raw.showMeaningTimer.getD (PyVal.int 3)) with
    | ok sm => simp [load_config, hS, hN5, DEFAULT_CONFIG]
    | error e => simp [load_config, hS, hN5, DEFAULT_CONFIG]
  · intro raw h
    cases hS : pyInt (raw.showMeaningTimer.getD (PyVal.int 3)) with
    | error e => simp [load_config, h, hS, DEFAULT_CONFIG]
    | ok sm =>
      cases hN : pyInt (raw.nextWordTimer.getD (PyVal.int 5)) with
      | ok nw => simp [load_config, h, hS, hN, pyBool, DEFAULT_CONFIG]
      | error e => simp [load_config, h, hS, hN, DEFAULT_CONFIG]

/-- Witness for C7: a negative entry is rejected with a message naming the
field, and a config file without `showMeaningTimer` loads as 3. -/
theorem c7_witness :
    (∃ msg, validate_timer " -2 " "타이머" = Except.error ("타이머" ++ msg)) ∧
    (load_config (some (some
        ⟨Option.none, some (PyVal.int 9), some (PyVal.bool false)⟩))).showMeaningTimer
      = 3 :=
  ⟨c7_validation_and_defaults.1 " -2 " "타이머"
      (Or.inr (Or.inr ⟨-2, rfl, by norm_num⟩)),
   c7_validation_and_defaults.2.2.1
      ⟨Option.none, some (PyVal.int 9), some (PyVal.bool false)⟩ rfl⟩

/-! ### Claim C8 -/

theorem length_filterMap_rowEntry (fields : List String)
    (rows : List (List String)) :
    (rows.filterMap (rowEntry fields)).length =
      (rows.filter (fun row =>
        pyStrip ((dictGet fields row "word").getD "") != "")).length := by
  induction rows with
  | nil => rfl
  | cons r rs ih =>
    by_cases hw : pyStrip ((dictGet fields r "word").getD "") = ""
    · simp [List.filterMap_cons, List.filter_cons, rowEntry, hw, ih]
    · simp [List.filterMap_cons, List.filter_cons, rowEntry, hw, ih]

/-- C8: `load_words_from_csv` rejects a source whose header lacks any of
`word`, `reading`, `meaning` before reading any row (the result does not
depend on the rows at all); on an accepted source every produced entry has a
non-empty stripped `word` built by stripping the row's three cells, exactly
the rows whose `word` strips to empty are dropped (the surviving count
equals the count of rows with non-empty stripped `word`), and every
surviving row's stripped entry is in the result. -/
theorem c8_csv_loading :
    (∀ (fns : Option (List String)) (rows rows' : List (List String)),
      ¬("word" ∈ fns.getD [] ∧ "reading" ∈ fns.getD [] ∧ "meaning" ∈ fns.getD []) →
      load_words_from_csv ⟨fns, rows⟩ =
        Except.error "CSV 헤더는 word, reading, meaning 을 포함해야 합니다." ∧
      load_words_from_csv ⟨fns, rows⟩ = load_words_from_csv ⟨fns, rows'⟩) ∧
    (∀ (fns : Option (List String)) (rows : List (List String)),
      ("word" ∈ fns.getD [] ∧ "reading" ∈ fns.getD [] ∧ "meaning" ∈ fns.getD []) →
      ∃ entries, load_words_from_csv ⟨fns, rows⟩ = Except.ok entries ∧
        (∀ e ∈ entries, e.word ≠ "" ∧ ∃ row ∈ rows,
          e = { word := pyStrip ((dictGet (fns.getD []) row "word").getD ""),
                reading := pyStrip ((dictGet (fns.getD []) row "reading").getD ""),
                meaning := pyStrip ((dictGet (fns.getD []) row "meaning").getD "") }) ∧
        entries.length = (rows.filter (fun row =>
          pyStrip ((dictGet (fns.getD []) row "word").getD "") != "")).length ∧
        (∀ row ∈ rows,
          pyStrip ((dictGet (fns.getD []) row "word").getD "") ≠ "" →
          ({ word := pyStrip ((dictGet (fns.getD []) row "word").getD ""),
             reading := pyStrip ((dictGet (fns.getD []) row "reading").getD ""),
             meaning := pyStrip ((dictGet (fns.getD []) row "meaning").getD "") }
            : WordEntry) ∈ entries)) := by
  constructor
  · intro fns rows rows' hreq
    constructor
    · simp only [load_words_from_csv]
      rw [if_neg hreq]
    · simp only [load_words_from_csv]
      rw [if_neg hreq, if_neg hreq]
  · intro fns rows hreq
    refine ⟨rows.filterMap (rowEntry (fns.getD [])), ?_, ?_, ?_, ?_⟩
    · simp only [load_words_from_csv]
      rw [if_pos hreq]
    · intro e he
      rw [List.mem_filterMap] at he
      obtain ⟨row, hrow, hre⟩ := he
      simp only [rowEntry] at hre
      split at hre
      · cases hre
      · rename_i hcond
        injection hre with hre
        subst hre
        exact ⟨hcond, row, hrow, rfl⟩
    · exact length_filterMap_rowEntry _ rows
    · intro row hrow hw
      rw [List.mem_filterMap]
      refine ⟨row, hrow, ?_⟩
      simp only [rowEntry]
      rw [if_neg hw]

/-- Witness for C8: a header missing `meaning` is rejected whatever the
rows; a well-formed file keeps the valid row and drops the blank-word row. -/
theorem c8_witness :
    (load_words_from_csv ⟨some ["word", "reading"], [["猫", "ねこ"]]⟩ =
        Except.error "CSV 헤더는 word, reading, meaning 을 포함해야 합니다." ∧
      load_words_from_csv ⟨some ["word", "reading"], [["猫", "ねこ"]]⟩ =
        load_words_from_csv ⟨some ["word", "reading"], []⟩) ∧
    (∃ entries,
      load_words_from_csv ⟨some ["word", "reading", "meaning"], goodRows⟩ =
        Except.ok entries ∧
      (∀ e ∈ entries, e.word ≠ "" ∧ ∃ row ∈ goodRows,
        e = { word := pyStrip ((dictGet ["word", "reading", "meaning"] row "word").getD ""),
              reading := pyStrip ((dictGet ["word", "reading", "meaning"] row "reading").getD ""),
              meaning := pyStrip ((dictGet ["word", "reading", "meaning"] row "meaning").getD "") }) ∧
      entries.length = (goodRows.filter (fun row =>
        pyStrip ((dictGet ["word", "reading", "meaning"] row "word").getD "") != "")).length ∧
      (∀ row ∈ goodRows,
        pyStrip ((dictGet ["word", "reading", "meaning"] row "word").getD "") ≠ "" →
        ({ word := pyStrip ((dictGet ["word", "reading", "meaning"] row "word").getD ""),
           reading := pyStrip ((dictGet ["word", "reading", "meaning"] row "reading").getD ""),
           meaning := pyStrip ((dictGet ["word", "reading", "meaning"] row "meaning").getD "") }
          : WordEntry) ∈ entries)) := by
  constructor
  · exact c8_csv_loading.1 (some ["word", "reading"]) [["猫", "ねこ"]] [] (by decide)
  · exact c8_csv_loading.2 (some ["word", "reading", "meaning"]) goodRows (by decide)

/-! ### Claim C9 -/

/-- C9: `load_config` is total and falls back atomically: a missing file or
unparseable content yields the defaults; if converting either timer field
raises (any malformed value), the entire result is `DEFAULT_CONFIG` — all
three fields revert, not just the bad one; and when both timer conversions
succeed the result is exactly the field-wise read. -/
theorem c9_load_config_atomic_fallback :
    load_config Option.none = DEFAULT_CONFIG ∧
    load_config (some Option.none) = DEFAULT_CONFIG ∧
    (∀ raw : RawConfig,
      (pyInt (raw.showMeaningTimer.getD (PyVal.int 3)) = Except.error () ∨
       pyInt (raw.nextWordTimer.getD (PyVal.int 5)) = Except.error ()) →
      load_config (some (some raw)) = DEFAULT_CONFIG) ∧
    (∀ (raw : RawConfig) (sm nw : Int),
      pyInt (raw.showMeaningTimer.getD (PyVal.int 3)) = Except.ok sm →
      pyInt (raw.nextWordTimer.getD (PyVal.int 5)) = Except.ok nw →
      load_config (some (some raw)) =
        { showMeaningTimer := sm, nextWordTimer := nw,
          alwaysOnTop := pyBool (raw.alwaysOnTop.getD (PyVal.bool true)) }) := by
  refine ⟨rfl, rfl, ?_, ?_⟩
  · intro raw h
    rcases h with h | h
    · cases hN : pyInt (raw.nextWordTimer.getD (PyVal.int 5)) with
      | ok nw => simp [load_config, h, hN, DEFAULT_CONFIG]
      | error e => simp [load_config, h, hN, DEFAULT_CONFIG]
    · cases hS : pyInt (raw.showMeaningTimer.getD (PyVal.int 3)) with
      | ok sm => simp [load_config, h, hS, DEFAULT_CONFIG]
      | error e => simp [load_config, h, hS, DEFAULT_CONFIG]
  · intro raw sm nw hS hN
    simp [load_config, hS, hN, DEFAULT_CONFIG]

/-- Witness for C9: a config whose `showMeaningTimer` is the string
`"abc"` — although `nextWordTimer` (99) and `alwaysOnTop` (false) are
well-formed, all three fields revert to the defaults. -/
theorem c9_witness :
    load_config (some (some
      ⟨some (PyVal.str "abc"), some (PyVal.int 99), some (PyVal.bool false)⟩))
      = DEFAULT_CONFIG :=
  c9_load_config_atomic_fallback.2.2.1
    ⟨some (PyVal.str "abc"), some (PyVal.int 99), some (PyVal.bool false)⟩
    (Or.inl rfl)

end JLPTVoca
